import Mathlib

/-
Verification of the audio transformation pipeline
(`audio_permutation_pipeline/main.py`).

Samples are modelled as exact rationals (`ℚ`); the float operations of the
source are translated structurally.  numpy division by zero yields a
non-finite float (inf or NaN); this is modelled by `Option ℚ`, with `none`
standing for any non-finite value.  Exceptions raised by Python/numpy are
modelled by `Except` / explicit error constructors, in the order in which
the corresponding lines of the source would raise them.

The reverb impulse response uses `exp` and a stream of gaussian noise
samples; both are opaque to every claim under study, so they are passed as
explicit function parameters (`rexp : ℚ → ℚ`, `noise : ℕ → ℚ`), which keeps
every definition executable and lets theorems quantify over them.
-/

namespace AudioPipeline

/-- numpy float division.  `none` models the non-finite result (inf or NaN)
produced when the divisor is zero; no exception is raised. -/
def npDiv (x d : ℚ) : Option ℚ := if d = 0 then none else some (x / d)

/-- Model of `np.max(np.abs(l))` for a non-empty list; the `0` base of the fold is
never the maximum on non-empty input since all compared values are `|x|`. -/
def maxAbs (l : List ℚ) : ℚ := l.foldr (fun x m => max |x| m) 0

/-- Ideal peak normalization `l / max(|l|)` (defined when the peak is nonzero). -/
def normalize (l : List ℚ) : List ℚ := l.map (fun x => x / maxAbs l)

/-- The normalization line `output / np.max(np.abs(output))` with numpy
semantics: division by a zero peak silently yields non-finite samples. -/
def normalizeNp (l : List ℚ) : List (Option ℚ) := l.map (fun x => npDiv x (maxAbs l))

/-- Runtime errors of the Python/numpy source lines under study. -/
inductive PyErr where
  | zeroSizeReduction
  | broadcastError
  | zeroDivision
  deriving Repr, DecidableEq

/-- Model of `np.linspace(0, d, n)`: for `n ≥ 2`, sample `i` is `i * d / (n - 1)`;
for `n = 1` the result is `[0]` (the formula also yields `0` there since
`x / 0 = 0` in `ℚ`); for `n = 0` it is empty. -/
def linspace (d : ℚ) (n : ℕ) : List ℚ :=
  (List.range n).map (fun (i : ℕ) => (i : ℚ) * d / ((n : ℚ) - 1))

/-- Model of `ir_length = int(reverb_duration * sr)` with `reverb_duration = room_size * 2.0`
(`int` truncates; for the positive values in the domain this is the floor). -/
def irLength (room_size : ℚ) (sr : ℕ) : ℕ := (⌊room_size * 2 * (sr : ℚ)⌋).toNat

/-- The impulse response of `_apply_reverb` (main.py lines 60-65):
`t = linspace(0, reverb_duration, ir_length)`, `decay = exp(-3 t / reverb_duration)`,
`impulse = decay * randn(ir_length) * 0.1`. -/
def impulseResponse (room_size : ℚ) (sr : ℕ) (rexp : ℚ → ℚ) (noise : ℕ → ℚ) : List ℚ :=
  let reverb_duration := room_size * 2
  let ir_length := irLength room_size sr
  let t := linspace reverb_duration ir_length
  let decay := t.map (fun ti => rexp (-3 * ti / reverb_duration))
  List.zipWith (fun dec i => dec * noise i * (1 / 10)) decay (List.range ir_length)

/-- Full linear convolution: sample `n` is `∑ i, a[i] * b[n-i]`, length
`|a| + |b| - 1`; empty if either input is empty (scipy behaviour). -/
def convFull (a b : List ℚ) : List ℚ :=
  if a.isEmpty || b.isEmpty then []
  else (List.range (a.length + b.length - 1)).map
    (fun n => ((List.range (n + 1)).map (fun i => a.getD i 0 * b.getD (n - i) 0)).sum)

/-- Model of `scipy.signal.fftconvolve(a, b, mode=same)`: the centered slice of the
full convolution, of the length of the first argument. -/
def convSame (a b : List ℚ) : List ℚ :=
  ((convFull a b).drop ((b.length - 1) / 2)).take a.length

/-- The pre-normalization mix of `_apply_reverb` (main.py lines 67-68):
`reverb_signal = fftconvolve(data, impulse, mode=same)`;
`output = (1 - wet_dry) * data + wet_dry * reverb_signal`. -/
def reverbMixed (data : List ℚ) (sr : ℕ) (room_size wet_dry : ℚ)
    (rexp : ℚ → ℚ) (noise : ℕ → ℚ) : List ℚ :=
  let reverb_signal := convSame data (impulseResponse room_size sr rexp noise)
  List.zipWith (fun d w => (1 - wet_dry) * d + wet_dry * w) data reverb_signal

/-- Model of `AudioPermutationPipeline._apply_reverb` (main.py lines 52-71).
The function performs no input validation: the numpy addition raises on a
length mismatch between `data` and the convolution (only possible when the
impulse is empty), `np.max` raises on an empty mix, and otherwise the final
division is returned unconditionally, including the zero-peak case where it
silently produces non-finite samples (`none`). -/
def apply_reverb (data : List ℚ) (sr : ℕ) (room_size wet_dry : ℚ)
    (rexp : ℚ → ℚ) (noise : ℕ → ℚ) : Except PyErr (List (Option ℚ)) :=
  if data.length ≠ (convSame data (impulseResponse room_size sr rexp noise)).length then
    .error .broadcastError
  else if (reverbMixed data sr room_size wet_dry rexp noise).isEmpty then
    .error .zeroSizeReduction
  else
    .ok (normalizeNp (reverbMixed data sr room_size wet_dry rexp noise))

/-- The reverb transform as used by `process` (main.py lines 204-206): the
returned buffer is saved at the unchanged input sample rate `sr`. -/
def applyReverbOp (data : List ℚ) (sr : ℕ) (room_size wet_dry : ℚ)
    (rexp : ℚ → ℚ) (noise : ℕ → ℚ) : Except PyErr (List (Option ℚ) × ℕ) :=
  (apply_reverb data sr room_size wet_dry rexp noise).map (fun buf => (buf, sr))

/-- Model of `num_repeats = int(np.ceil(original_length / overlay_length))`
(exact ceiling division for a positive divisor). -/
def numRepeats (original_length overlay_length : ℕ) : ℕ :=
  (original_length + overlay_length - 1) / overlay_length

/-- The length reconciliation of `_overlay_audio` (main.py lines 96-102):
tile-and-truncate a shorter overlay, trim a longer one, keep an equal one. -/
def reconcileLength (overlay_data : List ℚ) (original_length : ℕ) : List ℚ :=
  if overlay_data.length < original_length then
    ((List.replicate (numRepeats original_length overlay_data.length) overlay_data).flatten).take
      original_length
  else if original_length < overlay_data.length then
    overlay_data.take original_length
  else
    overlay_data

/-- The pre-normalization mix of `_overlay_audio` (main.py lines 105-108):
volume-scale the reconciled overlay, then add it to the original. -/
def overlayMixed (data overlay_data : List ℚ) (volume_ratio : ℚ) : List ℚ :=
  List.zipWith (· + ·) data
    ((reconcileLength overlay_data data.length).map (fun s => s * volume_ratio))

/-- Model of `AudioPermutationPipeline._overlay_audio` (main.py lines 75-114).
`loadAt r` models `librosa.load(overlay_path, sr=r)` (data, rate).
Python raises `ZeroDivisionError` when the ceiling division runs with an
empty overlay, and `np.max` raises on an empty mix; normalization happens
only when the peak exceeds 1. -/
def overlay_audio (data : List ℚ) (sr : ℕ) (loadAt : ℕ → List ℚ × ℕ)
    (volume_ratio : ℚ) : Except PyErr (List ℚ) :=
  if (loadAt sr).1.length < data.length ∧ (loadAt sr).1.length = 0 then
    .error .zeroDivision
  else if (overlayMixed data (loadAt sr).1 volume_ratio).isEmpty then
    .error .zeroSizeReduction
  else if 1 < maxAbs (overlayMixed data (loadAt sr).1 volume_ratio) then
    .ok ((overlayMixed data (loadAt sr).1 volume_ratio).map
      (fun x => x / maxAbs (overlayMixed data (loadAt sr).1 volume_ratio)))
  else
    .ok (overlayMixed data (loadAt sr).1 volume_ratio)

/-- The overlay transform as used by `apply_overlay` (main.py line 256): the
mixed buffer is saved at the unchanged primary sample rate `sr`. -/
def overlayOp (data : List ℚ) (sr : ℕ) (loadAt : ℕ → List ℚ × ℕ)
    (volume_ratio : ℚ) : Except PyErr (List ℚ × ℕ) :=
  (overlay_audio data sr loadAt volume_ratio).map (fun mixed => (mixed, sr))

/-- The reverb mix exactly as the spec words it (§4.1, §4.2): impulse length
`L = floor(D * sampleRate)` with `D = roomSize * 2.0`, impulse sample `i`
equal to `exp(-3 t[i] / D) * noise[i] * 0.1` with `t[i] = i * D / (L - 1)`,
wet signal the same-mode centered linear convolution of the dry signal with
the impulse, and output sample `i` equal to
`(1 - wetDry) * dry[i] + wetDry * wet[i]`. -/
def specReverbMixed (dry : List ℚ) (sampleRate : ℕ) (roomSize wetDry : ℚ)
    (rexp : ℚ → ℚ) (noise : ℕ → ℚ) : List ℚ :=
  let D := roomSize * 2
  let L := (⌊D * (sampleRate : ℚ)⌋).toNat
  let impulse := (List.range L).map
    (fun (i : ℕ) => rexp (-3 * ((i : ℚ) * D / ((L : ℚ) - 1)) / D) * noise i * (1 / 10))
  let wet := convSame dry impulse
  (List.range dry.length).map
    (fun i => (1 - wetDry) * dry.getD i 0 + wetDry * wet.getD i 0)

/-- External collaborators of `process`: the delegated pitch shift and time
stretch, and the ambient entropy/exp used by the reverb. -/
structure TransformFns where
  shift_pitch : List ℚ → ℕ → ℚ → List ℚ
  stretch_time : List ℚ → ℚ → List ℚ
  rexp : ℚ → ℚ
  noise : ℕ → ℚ

/-- The optional keyword arguments of `AudioPermutationPipeline.process`. -/
structure ProcessReq where
  input_path : String
  pitch_increase : Option ℚ
  pitch_decrease : Option ℚ
  speed_increase : Option ℚ
  speed_decrease : Option ℚ
  reverb_room_size : Option ℚ

/-- One output artifact written by `process` (file naming is I/O glue and
is not modelled; the constructor records which transform produced it). -/
inductive Artifact where
  | pitchUp (buf : List ℚ)
  | pitchDown (buf : List ℚ)
  | speedUp (buf : List ℚ)
  | speedDown (buf : List ℚ)
  | reverb (buf : List (Option ℚ))
  deriving Repr, DecidableEq

/-- Observable outcome of one `process` call: the early return with a
printed message for a missing file, a raised `AssertionError`, an exception
raised mid-way (artifacts already written are kept), or normal completion. -/
inductive ProcResult where
  | missingFile (msg : String)
  | assertError (msg : String)
  | raised (done : List Artifact) (e : PyErr)
  | ok (done : List Artifact)
  deriving Repr, DecidableEq

/-- The proposition `OptOk o p` holds when the optional parameter `o` is absent or its value
satisfies `p`: the form of every `assert` in `process` (main.py 152-156). -/
def OptOk (o : Option ℚ) (p : ℚ → Prop) : Prop :=
  match o with
  | none => True
  | some x => p x

instance instDecOptOk (o : Option ℚ) (p : ℚ → Prop) [DecidablePred p] :
    Decidable (OptOk o p) :=
  match o with
  | none => isTrue trivial
  | some x => inferInstanceAs (Decidable (p x))

/-- The artifacts of the four delegated transforms of `process` (main.py
lines 174-200), each computed from the original loaded buffer. -/
def processArtifacts (load : String → List ℚ × ℕ) (tf : TransformFns)
    (req : ProcessReq) : List Artifact :=
  (match req.pitch_increase with
    | some n => [Artifact.pitchUp (tf.shift_pitch (load req.input_path).1
        (load req.input_path).2 n)]
    | none => [])
  ++ (match req.pitch_decrease with
    | some n => [Artifact.pitchDown (tf.shift_pitch (load req.input_path).1
        (load req.input_path).2 n)]
    | none => [])
  ++ (match req.speed_increase with
    | some r => [Artifact.speedUp (tf.stretch_time (load req.input_path).1 r)]
    | none => [])
  ++ (match req.speed_decrease with
    | some r => [Artifact.speedDown (tf.stretch_time (load req.input_path).1 r)]
    | none => [])

/-- The post-validation body of `process` (main.py lines 169-209): run the
four delegated transforms, then the reverb last, on the original buffer,
with the reverb invoked at the default `wet_dry = 0.3`; an exception from
the reverb keeps the artifacts already written. -/
def processTransforms (load : String → List ℚ × ℕ) (tf : TransformFns)
    (req : ProcessReq) : ProcResult :=
  match req.reverb_room_size with
  | none => ProcResult.ok (processArtifacts load tf req)
  | some r =>
    match apply_reverb (load req.input_path).1 (load req.input_path).2 r (3 / 10)
        tf.rexp tf.noise with
    | .error e => ProcResult.raised (processArtifacts load tf req) e
    | .ok buf => ProcResult.ok (processArtifacts load tf req ++ [Artifact.reverb buf])

/-- Model of `AudioPermutationPipeline.process` (main.py lines 129-209).
`fs` models `os.path.exists`, `load` models `librosa.load(path, sr=None)`.
The file check precedes the asserts; the asserts precede the load and every
transform; each transform reads the original loaded buffer; the reverb runs
last with the default `wet_dry = 0.3` and may raise. -/
def process (fs : String → Bool) (load : String → List ℚ × ℕ)
    (tf : TransformFns) (req : ProcessReq) : ProcResult :=
  if fs req.input_path = false then
    .missingFile ("Error: File " ++ req.input_path ++ " not found.")
  else if ¬ OptOk req.pitch_increase (fun x => 0 < x) then
    .assertError "pitch_increase must be positive"
  else if ¬ OptOk req.pitch_decrease (fun x => x < 0) then
    .assertError "pitch_decrease must be negative"
  else if ¬ OptOk req.speed_increase (fun x => 1 < x) then
    .assertError "speed_increase must be > 1.0"
  else if ¬ OptOk req.speed_decrease (fun x => 0 < x ∧ x < 1) then
    .assertError "speed_decrease must be between 0 and 1"
  else if ¬ OptOk req.reverb_room_size (fun x => 0 < x ∧ x ≤ 1) then
    .assertError "reverb_room_size must be between 0 and 1"
  else
    processTransforms load tf req

/-- Observable outcome of one `apply_overlay` call. -/
inductive OverlayResult where
  | missingFile (msg : String)
  | raised (e : PyErr)
  | ok (buf : List ℚ) (sr : ℕ)
  deriving Repr, DecidableEq

/-- Model of `AudioPermutationPipeline.apply_overlay` (main.py lines 212-259).
`load path (some r)` models `librosa.load(path, sr=r)` and
`load path none` models `librosa.load(path, sr=None)` (native rate).
Both file checks precede everything else; the overlay is loaded inside
`_overlay_audio` at the primary rate; no validation of `overlay_volume`
is performed anywhere; the result is saved at the primary rate. -/
def apply_overlay (fs : String → Bool) (load : String → Option ℕ → List ℚ × ℕ)
    (original_audio_path overlay_audio_path : String)
    (overlay_volume : ℚ) : OverlayResult :=
  if fs original_audio_path = false then
    .missingFile ("Error: File " ++ original_audio_path ++ " not found.")
  else if fs overlay_audio_path = false then
    .missingFile ("Error: Overlay file " ++ overlay_audio_path ++ " not found.")
  else
    let data := (load original_audio_path none).1
    let sr := (load original_audio_path none).2
    match overlay_audio data sr (fun r => load overlay_audio_path (some r)) overlay_volume with
    | .error e => OverlayResult.raised e
    | .ok mixed => OverlayResult.ok mixed sr

/-- Trivial external collaborators, used only to instantiate witnesses. -/
def tfConst : TransformFns where
  shift_pitch := fun d _ _ => d
  stretch_time := fun d _ => d
  rexp := fun _ => 1
  noise := fun _ => 1

/-! ### Basic lemmas about the building blocks -/

@[simp]
theorem linspace_length (d : ℚ) (n : ℕ) : (linspace d n).length = n := by
  rw [linspace, List.length_map, List.length_range]

@[simp]
theorem impulseResponse_length (room_size : ℚ) (sr : ℕ) (rexp : ℚ → ℚ) (noise : ℕ → ℚ) :
    (impulseResponse room_size sr rexp noise).length = irLength room_size sr := by
  simp [impulseResponse]

theorem convFull_length (a b : List ℚ) (ha : a ≠ []) (hb : b ≠ []) :
    (convFull a b).length = a.length + b.length - 1 := by
  unfold convFull
  rw [if_neg]
  · simp
  · simp [ha, hb]

theorem convSame_length (a b : List ℚ) (ha : a ≠ []) (hb : b ≠ []) :
    (convSame a b).length = a.length := by
  have hb1 : 1 ≤ b.length := List.length_pos.mpr hb
  have hfull := convFull_length a b ha hb
  simp only [convSame, List.length_take, List.length_drop, hfull]
  omega

theorem impulseResponse_ne_nil (room_size : ℚ) (sr : ℕ) (rexp : ℚ → ℚ) (noise : ℕ → ℚ)
    (hL : 1 ≤ irLength room_size sr) :
    impulseResponse room_size sr rexp noise ≠ [] := by
  have h := impulseResponse_length room_size sr rexp noise
  intro hnil
  rw [hnil] at h
  simp at h
  omega

theorem reverbMixed_length (data : List ℚ) (sr : ℕ) (room_size wet_dry : ℚ)
    (rexp : ℚ → ℚ) (noise : ℕ → ℚ) (ha : data ≠ []) (hL : 1 ≤ irLength room_size sr) :
    (reverbMixed data sr room_size wet_dry rexp noise).length = data.length := by
  have himp := impulseResponse_ne_nil room_size sr rexp noise hL
  simp [reverbMixed, List.length_zipWith, convSame_length data _ ha himp]

theorem maxAbs_nonneg (l : List ℚ) : 0 ≤ maxAbs l := by
  induction l with
  | nil => simp [maxAbs]
  | cons x t ih =>
    simp only [maxAbs, List.foldr_cons] at ih ⊢
    exact le_trans ih (le_max_right _ _)

theorem maxAbs_cons (x : ℚ) (t : List ℚ) : maxAbs (x :: t) = max |x| (maxAbs t) := rfl

theorem maxAbs_map_div (l : List ℚ) (p : ℚ) (hp : 0 < p) :
    maxAbs (l.map (fun x => x / p)) = maxAbs l / p := by
  induction l with
  | nil => simp [maxAbs]
  | cons x t ih =>
    rw [List.map_cons, maxAbs_cons, maxAbs_cons, ih, abs_div, abs_of_pos hp,
      max_div_div_right hp.le]

theorem maxAbs_normalize (l : List ℚ) (h : maxAbs l ≠ 0) :
    maxAbs (normalize l) = 1 := by
  have hp : 0 < maxAbs l := lt_of_le_of_ne (maxAbs_nonneg l) (Ne.symm h)
  rw [normalize, maxAbs_map_div l (maxAbs l) hp, div_self h]

theorem normalizeNp_of_ne_zero (l : List ℚ) (h : maxAbs l ≠ 0) :
    normalizeNp l = (normalize l).map some := by
  simp [normalizeNp, normalize, npDiv, h, List.map_map, Function.comp]

theorem normalizeNp_of_zero (l : List ℚ) (h : maxAbs l = 0) :
    normalizeNp l = List.replicate l.length none := by
  simp [normalizeNp, npDiv, h]

theorem le_numRepeats_mul (lp ls : ℕ) (h : 1 ≤ ls) : lp ≤ numRepeats lp ls * ls := by
  unfold numRepeats
  rw [mul_comm]
  have h1 := Nat.div_add_mod (lp + ls - 1) ls
  have h2 : (lp + ls - 1) % ls < ls := Nat.mod_lt _ (by omega)
  generalize hm : ls * ((lp + ls - 1) / ls) = m at h1 ⊢
  generalize hr : (lp + ls - 1) % ls = r at h1 h2
  omega

theorem getD_take (l : List ℚ) (n i : ℕ) (h : i < n) :
    (l.take n).getD i 0 = l.getD i 0 := by
  simp [List.getD_eq_getElem?_getD, List.getElem?_take, h]

theorem flatten_replicate_getD (n : ℕ) (l : List ℚ) (i : ℕ) (h : i < n * l.length) :
    ((List.replicate n l).flatten).getD i 0 = l.getD (i % l.length) 0 := by
  induction n generalizing i with
  | zero => omega
  | succ n ih =>
    rw [List.replicate_succ, List.flatten_cons]
    have hmul : (n + 1) * l.length = n * l.length + l.length := by ring
    by_cases hi : i < l.length
    · rw [List.getD_append _ _ _ _ hi, Nat.mod_eq_of_lt hi]
    · push_neg at hi
      rw [List.getD_append_right _ _ _ _ hi, Nat.mod_eq_sub_mod hi]
      exact ih (i - l.length) (by omega)

theorem flatten_replicate_length (n : ℕ) (l : List ℚ) :
    ((List.replicate n l).flatten).length = n * l.length := by
  induction n with
  | zero => simp
  | succ n ih =>
    rw [List.replicate_succ, List.flatten_cons, List.length_append, ih]
    ring

theorem reconcileLength_length (overlay_data : List ℚ) (lp : ℕ) (h : overlay_data ≠ []) :
    (reconcileLength overlay_data lp).length = lp := by
  have hs : 1 ≤ overlay_data.length := List.length_pos.mpr h
  unfold reconcileLength
  split_ifs with h1 h2
  · rw [List.length_take, flatten_replicate_length]
    exact min_eq_left (le_numRepeats_mul lp overlay_data.length hs)
  · rw [List.length_take]
    exact min_eq_left (le_of_lt h2)
  · omega

theorem reconcileLength_getD (overlay_data : List ℚ) (lp i : ℕ)
    (h : overlay_data ≠ []) (hi : i < lp) :
    (reconcileLength overlay_data lp).getD i 0 =
      overlay_data.getD (i % overlay_data.length) 0 := by
  have hs : 1 ≤ overlay_data.length := List.length_pos.mpr h
  unfold reconcileLength
  split_ifs with h1 h2
  · rw [getD_take _ _ _ hi]
    exact flatten_replicate_getD _ _ _
      (lt_of_lt_of_le hi (le_numRepeats_mul lp overlay_data.length hs))
  · rw [getD_take _ _ _ hi, Nat.mod_eq_of_lt (lt_trans hi h2)]
  · have : overlay_data.length = lp := by omega
    rw [this, Nat.mod_eq_of_lt hi]

theorem overlayMixed_length (data overlay_data : List ℚ) (vr : ℚ)
    (h : overlay_data ≠ []) :
    (overlayMixed data overlay_data vr).length = data.length := by
  simp [overlayMixed, List.length_zipWith, reconcileLength_length _ _ h]

/-! ### Unfolding the two mixers on non-degenerate input -/

theorem apply_reverb_eq (data : List ℚ) (sr : ℕ) (room_size wet_dry : ℚ)
    (rexp : ℚ → ℚ) (noise : ℕ → ℚ) (ha : data ≠ []) (hL : 1 ≤ irLength room_size sr) :
    apply_reverb data sr room_size wet_dry rexp noise =
      Except.ok (normalizeNp (reverbMixed data sr room_size wet_dry rexp noise)) := by
  have himp := impulseResponse_ne_nil room_size sr rexp noise hL
  have hlen := convSame_length data (impulseResponse room_size sr rexp noise) ha himp
  have hmix := reverbMixed_length data sr room_size wet_dry rexp noise ha hL
  have hmixne : reverbMixed data sr room_size wet_dry rexp noise ≠ [] := by
    intro hc
    rw [hc] at hmix
    exact ha (List.length_eq_zero.mp hmix.symm)
  unfold apply_reverb
  rw [if_neg (not_not_intro hlen.symm), if_neg (by simp [hmixne])]

theorem overlay_audio_eq (data : List ℚ) (sr : ℕ) (loadAt : ℕ → List ℚ × ℕ) (vr : ℚ)
    (h3 : data ≠ []) (h4 : (loadAt sr).1 ≠ []) :
    overlay_audio data sr loadAt vr =
      Except.ok
        (if 1 < maxAbs (overlayMixed data (loadAt sr).1 vr) then
          (overlayMixed data (loadAt sr).1 vr).map
            (fun x => x / maxAbs (overlayMixed data (loadAt sr).1 vr))
        else overlayMixed data (loadAt sr).1 vr) := by
  have hlen0 : (loadAt sr).1.length ≠ 0 := by
    intro hc
    exact h4 (List.length_eq_zero.mp hc)
  have hmix := overlayMixed_length data (loadAt sr).1 vr h4
  have hmixne : overlayMixed data (loadAt sr).1 vr ≠ [] := by
    intro hc
    rw [hc] at hmix
    exact h3 (List.length_eq_zero.mp hmix.symm)
  unfold overlay_audio
  rw [if_neg (by intro hc; exact hlen0 hc.2), if_neg (by simp [hmixne])]
  split_ifs <;> rfl

/-! ### Claim theorems -/

/-- C1: for every non-empty dry buffer (with the non-degenerate impulse length
the spec requires at validation), `applyReverb` returns a buffer of the same
length as the dry input at the unchanged sample rate; and for every non-empty
primary and non-empty secondary, `overlay` returns a buffer of the length of
the primary at the unchanged sample rate, whatever the length of the
secondary. -/
theorem length_invariants
    (dry : List ℚ) (sr1 : ℕ) (room_size wet_dry : ℚ) (rexp : ℚ → ℚ) (noise : ℕ → ℚ)
    (data : List ℚ) (sr2 : ℕ) (loadAt : ℕ → List ℚ × ℕ) (vr : ℚ)
    (h1 : dry ≠ []) (h2 : 1 ≤ irLength room_size sr1)
    (h3 : data ≠ []) (h4 : (loadAt sr2).1 ≠ []) :
    (∃ out, applyReverbOp dry sr1 room_size wet_dry rexp noise = Except.ok (out, sr1) ∧
      out.length = dry.length) ∧
    (∃ res, overlayOp data sr2 loadAt vr = Except.ok (res, sr2) ∧
      res.length = data.length) := by
  constructor
  · refine ⟨normalizeNp (reverbMixed dry sr1 room_size wet_dry rexp noise), ?_, ?_⟩
    · rw [applyReverbOp, apply_reverb_eq dry sr1 room_size wet_dry rexp noise h1 h2]
      rfl
    · rw [normalizeNp, List.length_map,
        reverbMixed_length dry sr1 room_size wet_dry rexp noise h1 h2]
  · refine ⟨if 1 < maxAbs (overlayMixed data (loadAt sr2).1 vr) then
        (overlayMixed data (loadAt sr2).1 vr).map
          (fun x => x / maxAbs (overlayMixed data (loadAt sr2).1 vr))
      else overlayMixed data (loadAt sr2).1 vr, ?_, ?_⟩
    · rw [overlayOp, overlay_audio_eq data sr2 loadAt vr h3 h4]
      rfl
    · split_ifs
      · rw [List.length_map, overlayMixed_length data (loadAt sr2).1 vr h4]
      · rw [overlayMixed_length data (loadAt sr2).1 vr h4]

/-- Witness for C1 at concrete inputs. -/
theorem length_invariants_w :
    ([(1 : ℚ)] ≠ []) ∧ 1 ≤ irLength (1 / 2) 1 ∧ ([(1 : ℚ) / 2] ≠ []) ∧
      (((fun (r : ℕ) => ([(1 : ℚ) / 2], r)) 4).1 ≠ []) ∧
    ((∃ out, applyReverbOp [(1 : ℚ)] 1 (1 / 2) (3 / 10) (fun _ => 1) (fun _ => 1) =
        Except.ok (out, 1) ∧ out.length = [(1 : ℚ)].length) ∧
     (∃ res, overlayOp [(1 : ℚ) / 2] 4 (fun r => ([(1 : ℚ) / 2], r)) 1 =
        Except.ok (res, 4) ∧ res.length = [(1 : ℚ) / 2].length)) := by
  refine ⟨by simp, by norm_num [irLength, Int.toNat], by simp, by simp, ?_⟩
  exact length_invariants [(1 : ℚ)] 1 (1 / 2) (3 / 10) (fun _ => 1) (fun _ => 1)
    [(1 : ℚ) / 2] 4 (fun r => ([(1 : ℚ) / 2], r)) 1
    (by simp) (by norm_num [irLength, Int.toNat]) (by simp) (by simp)

/-- C2: for every non-empty primary and secondary, the overlay mix is the
element-wise sum `primary[i] + secondary[i] * volumeRatio` over the
length-reconciled secondary; the returned buffer is that sum unchanged when
its peak is at most 1, and the sum divided by its peak otherwise, in which
case the returned peak is exactly 1 (result peak = `min peak 1`). -/
theorem overlay_clip_only_normalization
    (data : List ℚ) (sr : ℕ) (loadAt : ℕ → List ℚ × ℕ) (vr : ℚ)
    (h3 : data ≠ []) (h4 : (loadAt sr).1 ≠ []) :
    overlayMixed data (loadAt sr).1 vr =
      List.zipWith (fun p s => p + s * vr) data
        (reconcileLength (loadAt sr).1 data.length) ∧
    overlay_audio data sr loadAt vr =
      Except.ok
        (if 1 < maxAbs (overlayMixed data (loadAt sr).1 vr) then
          (overlayMixed data (loadAt sr).1 vr).map
            (fun x => x / maxAbs (overlayMixed data (loadAt sr).1 vr))
        else overlayMixed data (loadAt sr).1 vr) ∧
    maxAbs
        (if 1 < maxAbs (overlayMixed data (loadAt sr).1 vr) then
          (overlayMixed data (loadAt sr).1 vr).map
            (fun x => x / maxAbs (overlayMixed data (loadAt sr).1 vr))
        else overlayMixed data (loadAt sr).1 vr) =
      min (maxAbs (overlayMixed data (loadAt sr).1 vr)) 1 := by
  refine ⟨?_, overlay_audio_eq data sr loadAt vr h3 h4, ?_⟩
  · rw [overlayMixed, List.zipWith_map_right]
  · split_ifs with hc
    · rw [maxAbs_map_div _ _ (lt_trans one_pos hc), div_self (by positivity),
        min_eq_right hc.le]
    · rw [min_eq_left (not_lt.mp hc)]

/-- Witness for C2 at concrete inputs: primary `[3/4, 3/4]`, secondary `[1/2]`,
volume 1; the mix `[5/4, 5/4]` clips and is normalized to peak exactly 1. -/
theorem overlay_clip_only_normalization_w :
    ([(3 : ℚ) / 4, 3 / 4] ≠ []) ∧
      (((fun (r : ℕ) => ([(1 : ℚ) / 2], r)) 4).1 ≠ []) ∧
    overlay_audio [(3 : ℚ) / 4, 3 / 4] 4 (fun r => ([(1 : ℚ) / 2], r)) 1 =
      Except.ok [1, 1] := by
  have h := overlay_clip_only_normalization [(3 : ℚ) / 4, 3 / 4] 4
    (fun r => ([(1 : ℚ) / 2], r)) 1 (by simp) (by simp)
  refine ⟨by simp, by simp, ?_⟩
  rw [h.2.1]
  norm_num [overlayMixed, reconcileLength, numRepeats, maxAbs, List.replicate,
    abs_of_nonneg]

/-- C3: `applyReverb` normalizes unconditionally: for every non-empty dry
input (with non-degenerate impulse length), every `wetDry ∈ [0,1]` and
`roomSize ∈ (0,1]`, whenever the mixed output has nonzero peak the returned
buffer has peak exactly 1. -/
theorem reverb_unconditional_normalization
    (dry : List ℚ) (sr : ℕ) (room_size wet_dry : ℚ) (rexp : ℚ → ℚ) (noise : ℕ → ℚ)
    (h1 : dry ≠ []) (h2 : 1 ≤ irLength room_size sr)
    (h3 : 0 ≤ wet_dry) (h4 : wet_dry ≤ 1) (h5 : 0 < room_size) (h6 : room_size ≤ 1)
    (h7 : maxAbs (reverbMixed dry sr room_size wet_dry rexp noise) ≠ 0) :
    apply_reverb dry sr room_size wet_dry rexp noise =
      Except.ok ((normalize (reverbMixed dry sr room_size wet_dry rexp noise)).map some) ∧
    maxAbs (normalize (reverbMixed dry sr room_size wet_dry rexp noise)) = 1 := by
  constructor
  · rw [apply_reverb_eq dry sr room_size wet_dry rexp noise h1 h2,
      normalizeNp_of_ne_zero _ h7]
  · exact maxAbs_normalize _ h7

/-- Witness for C3 at concrete inputs. -/
theorem reverb_unconditional_normalization_w :
    ([(1 : ℚ)] ≠ []) ∧ 1 ≤ irLength (1 / 2) 1 ∧
      (0 : ℚ) ≤ 3 / 10 ∧ (3 : ℚ) / 10 ≤ 1 ∧ (0 : ℚ) < 1 / 2 ∧ (1 : ℚ) / 2 ≤ 1 ∧
      maxAbs (reverbMixed [(1 : ℚ)] 1 (1 / 2) (3 / 10) (fun _ => 1) (fun _ => 1)) ≠ 0 ∧
    maxAbs (normalize (reverbMixed [(1 : ℚ)] 1 (1 / 2) (3 / 10)
      (fun _ => 1) (fun _ => 1))) = 1 := by
  have hpk : maxAbs (reverbMixed [(1 : ℚ)] 1 (1 / 2) (3 / 10)
      (fun _ => 1) (fun _ => 1)) = 73 / 100 := by
    norm_num [reverbMixed, convSame, convFull, impulseResponse, linspace, irLength,
      Int.toNat, maxAbs, List.range_succ, abs_of_nonneg]
  refine ⟨by simp, by norm_num [irLength, Int.toNat], by norm_num, by norm_num,
    by norm_num, by norm_num, by rw [hpk]; norm_num, ?_⟩
  exact (reverb_unconditional_normalization [(1 : ℚ)] 1 (1 / 2) (3 / 10)
    (fun _ => 1) (fun _ => 1) (by simp) (by norm_num [irLength, Int.toNat])
    (by norm_num) (by norm_num) (by norm_num) (by norm_num)
    (by rw [hpk]; norm_num)).2

/-- C4: for every non-empty secondary, the pre-scaling, pre-mixing secondary
contribution used by overlay has exactly the length of the primary, its sample `i`
is `secondary[i mod Ls]` (hence the first `Ls` samples equal the secondary
when it is tiled, the prefix `secondary[0:Lp]` is used when it is longer, and
it is used as-is when equal), and concretely the tile of `[1,2,3]` against a
primary of length 10 is `[1,2,3,1,2,3,1,2,3,1]`. -/
theorem overlay_reconciliation
    (overlay_data : List ℚ) (lp i : ℕ) (h : overlay_data ≠ []) (hi : i < lp) :
    (reconcileLength overlay_data lp).length = lp ∧
    (reconcileLength overlay_data lp).getD i 0 =
      overlay_data.getD (i % overlay_data.length) 0 ∧
    reconcileLength [(1 : ℚ), 2, 3] 10 = [1, 2, 3, 1, 2, 3, 1, 2, 3, 1] := by
  refine ⟨reconcileLength_length overlay_data lp h,
    reconcileLength_getD overlay_data lp i h hi, ?_⟩
  norm_num [reconcileLength, numRepeats, List.replicate]

/-- Witness for C4 at concrete inputs. -/
theorem overlay_reconciliation_w :
    ([(1 : ℚ), 2, 3] ≠ []) ∧ 4 < 10 ∧
    ((reconcileLength [(1 : ℚ), 2, 3] 10).length = 10 ∧
     (reconcileLength [(1 : ℚ), 2, 3] 10).getD 4 0 =
       [(1 : ℚ), 2, 3].getD (4 % [(1 : ℚ), 2, 3].length) 0 ∧
     reconcileLength [(1 : ℚ), 2, 3] 10 = [1, 2, 3, 1, 2, 3, 1, 2, 3, 1]) := by
  refine ⟨by simp, by norm_num, ?_⟩
  exact overlay_reconciliation [(1 : ℚ), 2, 3] 10 4 (by simp) (by norm_num)

/-! ### The reverb algorithm against the wording of the spec -/

theorem zipWith_eq_range_map (f : ℚ → ℚ → ℚ) (a b : List ℚ) (h : b.length = a.length) :
    List.zipWith f a b = (List.range a.length).map (fun i => f (a.getD i 0) (b.getD i 0)) := by
  apply List.ext_getElem
  · simp [List.length_zipWith, h]
  · intro n h1 h2
    have hn : n < a.length := by
      simp only [List.length_zipWith, h, min_self] at h1
      exact h1
    simp only [List.getElem_zipWith, List.getElem_map, List.getElem_range,
      List.getD_eq_getElem?_getD, List.getElem?_eq_getElem hn,
      List.getElem?_eq_getElem (h ▸ hn : n < b.length), Option.getD_some]

theorem impulseResponse_eq_map (roomSize : ℚ) (sr : ℕ) (rexp : ℚ → ℚ) (noise : ℕ → ℚ) :
    impulseResponse roomSize sr rexp noise =
      (List.range ((⌊roomSize * 2 * (sr : ℚ)⌋).toNat)).map
        (fun (i : ℕ) => rexp (-3 * ((i : ℚ) * (roomSize * 2) /
          (((⌊roomSize * 2 * (sr : ℚ)⌋).toNat : ℚ) - 1)) / (roomSize * 2)) *
          noise i * (1 / 10)) := by
  simp only [impulseResponse, linspace, irLength, List.map_map, List.zipWith_map_left,
    List.zipWith_same, Function.comp]

/-- The pre-normalization mix computed by the source equals the mix as the
spec words it. -/
theorem reverbMixed_eq_spec (dry : List ℚ) (sr : ℕ) (roomSize wetDry : ℚ)
    (rexp : ℚ → ℚ) (noise : ℕ → ℚ) (h1 : dry ≠ []) (h2 : 1 ≤ irLength roomSize sr) :
    reverbMixed dry sr roomSize wetDry rexp noise =
      specReverbMixed dry sr roomSize wetDry rexp noise := by
  have himp := impulseResponse_ne_nil roomSize sr rexp noise h2
  have hwet := convSame_length dry (impulseResponse roomSize sr rexp noise) h1 himp
  rw [reverbMixed, zipWith_eq_range_map _ dry _ hwet, specReverbMixed,
    impulseResponse_eq_map]

/-- C5: for every non-empty dry buffer (with non-degenerate impulse length and
non-degenerate peak), `applyReverb` returns the normalization of the buffer
whose sample `i` is `(1 - wetDry) * dry[i] + wetDry * wet[i]`, where `wet` is
the same-mode centered linear convolution of the dry signal with the impulse
response of length `L = floor(roomSize * 2.0 * sr)` whose sample `i` is
`exp(-3 t[i] / D) * noise[i] * 0.1`, `D = roomSize * 2.0`, `t[i] = i D/(L-1)`. -/
theorem reverb_algorithm_matches_spec
    (dry : List ℚ) (sr : ℕ) (roomSize wetDry : ℚ) (rexp : ℚ → ℚ) (noise : ℕ → ℚ)
    (h1 : dry ≠ []) (h2 : 1 ≤ irLength roomSize sr)
    (h3 : maxAbs (specReverbMixed dry sr roomSize wetDry rexp noise) ≠ 0) :
    apply_reverb dry sr roomSize wetDry rexp noise =
      Except.ok ((normalize (specReverbMixed dry sr roomSize wetDry rexp noise)).map some) := by
  rw [apply_reverb_eq dry sr roomSize wetDry rexp noise h1 h2,
    reverbMixed_eq_spec dry sr roomSize wetDry rexp noise h1 h2,
    normalizeNp_of_ne_zero _ h3]

/-- Witness for C5 at concrete inputs. -/
theorem reverb_algorithm_matches_spec_w :
    ([(1 : ℚ), 1] ≠ []) ∧ 1 ≤ irLength 1 1 ∧
      maxAbs (specReverbMixed [(1 : ℚ), 1] 1 1 (3 / 10) (fun _ => 1) (fun _ => 1)) ≠ 0 ∧
    apply_reverb [(1 : ℚ), 1] 1 1 (3 / 10) (fun _ => 1) (fun _ => 1) =
      Except.ok ((normalize (specReverbMixed [(1 : ℚ), 1] 1 1 (3 / 10)
        (fun _ => 1) (fun _ => 1))).map some) := by
  have hpk : maxAbs (specReverbMixed [(1 : ℚ), 1] 1 1 (3 / 10)
      (fun _ => 1) (fun _ => 1)) = 19 / 25 := by
    norm_num [specReverbMixed, convSame, convFull, maxAbs, List.range_succ,
      Int.toNat, abs_of_nonneg]
  refine ⟨by simp, by norm_num [irLength, Int.toNat], by rw [hpk]; norm_num, ?_⟩
  exact reverb_algorithm_matches_spec [(1 : ℚ), 1] 1 1 (3 / 10)
    (fun _ => 1) (fun _ => 1) (by simp) (by norm_num [irLength, Int.toNat])
    (by rw [hpk]; norm_num)

/-! ### C6: degenerate inputs of the reverb -/

/-- C6 (amended): `applyReverb` performs no input validation and no
degeneracy guard.  On an empty dry buffer the failure is the zero-size peak
reduction, raised only after the convolution has been attempted; and on a
non-empty input whose mixed output has zero peak, no error is signalled at
all: the division by zero silently yields a buffer made entirely of
non-finite (NaN) samples, which is returned as the ok result. -/
theorem reverb_degenerate_behaviour
    (sr1 : ℕ) (rs1 wd1 : ℚ) (e1 : ℚ → ℚ) (n1 : ℕ → ℚ)
    (dry : List ℚ) (sr : ℕ) (rs wd : ℚ) (e : ℚ → ℚ) (no : ℕ → ℚ)
    (h1 : dry ≠ []) (h2 : 1 ≤ irLength rs sr)
    (h3 : maxAbs (reverbMixed dry sr rs wd e no) = 0) :
    apply_reverb [] sr1 rs1 wd1 e1 n1 = Except.error PyErr.zeroSizeReduction ∧
    apply_reverb dry sr rs wd e no = Except.ok (List.replicate dry.length none) := by
  constructor
  · rfl
  · rw [apply_reverb_eq dry sr rs wd e no h1 h2, normalizeNp_of_zero _ h3,
      reverbMixed_length dry sr rs wd e no h1 h2]

/-- Witness for the amended C6 at concrete inputs. -/
theorem reverb_degenerate_behaviour_w :
    ([(0 : ℚ), 0] ≠ []) ∧ 1 ≤ irLength (1 / 2) 2 ∧
      maxAbs (reverbMixed [(0 : ℚ), 0] 2 (1 / 2) (3 / 10) (fun _ => 1) (fun _ => 0)) = 0 ∧
    (apply_reverb [] 1 (1 / 2) (3 / 10) (fun _ => 1) (fun _ => 1) =
      Except.error PyErr.zeroSizeReduction ∧
     apply_reverb [(0 : ℚ), 0] 2 (1 / 2) (3 / 10) (fun _ => 1) (fun _ => 0) =
      Except.ok (List.replicate [(0 : ℚ), 0].length none)) := by
  have hpk : maxAbs (reverbMixed [(0 : ℚ), 0] 2 (1 / 2) (3 / 10)
      (fun _ => 1) (fun _ => 0)) = 0 := by
    norm_num [reverbMixed, convSame, convFull, impulseResponse, linspace, irLength,
      Int.toNat, maxAbs, List.range_succ]
  refine ⟨by simp, by norm_num [irLength, Int.toNat], hpk, ?_⟩
  exact reverb_degenerate_behaviour 1 (1 / 2) (3 / 10) (fun _ => 1) (fun _ => 1)
    [(0 : ℚ), 0] 2 (1 / 2) (3 / 10) (fun _ => 1) (fun _ => 0)
    (by simp) (by norm_num [irLength, Int.toNat]) hpk

/-- Counterexample to C6 as stated: on the all-zero two-sample dry buffer
(noise stream 0, so the mixed output has zero peak), `applyReverb` does not
signal a numerical-degeneracy error; it returns, as a successful result, a
buffer both of whose samples are non-finite (`none` models the NaN produced
by `0.0 / 0.0`). -/
theorem reverb_degenerate_cx :
    apply_reverb [(0 : ℚ), 0] 2 (1 / 2) (3 / 10) (fun _ => 1) (fun _ => 0) =
      Except.ok [none, none] := by
  have hpk : maxAbs (reverbMixed [(0 : ℚ), 0] 2 (1 / 2) (3 / 10)
      (fun _ => 1) (fun _ => 0)) = 0 := by
    norm_num [reverbMixed, convSame, convFull, impulseResponse, linspace, irLength,
      Int.toNat, maxAbs, List.range_succ]
  have hlen : (reverbMixed [(0 : ℚ), 0] 2 (1 / 2) (3 / 10)
      (fun _ => 1) (fun _ => 0)).length = 2 := by
    norm_num [reverbMixed, convSame, convFull, impulseResponse, linspace, irLength,
      Int.toNat, List.range_succ]
  rw [apply_reverb_eq [(0 : ℚ), 0] 2 (1 / 2) (3 / 10) (fun _ => 1) (fun _ => 0)
    (by simp) (by norm_num [irLength, Int.toNat]), normalizeNp_of_zero _ hpk, hlen]
  rfl

/-! ### Orchestrator claims -/

theorem process_valid_eq (fs : String → Bool) (load : String → List ℚ × ℕ)
    (tf : TransformFns) (req : ProcessReq)
    (hf : fs req.input_path = true)
    (v1 : OptOk req.pitch_increase (fun x => 0 < x))
    (v2 : OptOk req.pitch_decrease (fun x => x < 0))
    (v3 : OptOk req.speed_increase (fun x => 1 < x))
    (v4 : OptOk req.speed_decrease (fun x => 0 < x ∧ x < 1))
    (v5 : OptOk req.reverb_room_size (fun x => 0 < x ∧ x ≤ 1)) :
    process fs load tf req = processTransforms load tf req := by
  unfold process
  rw [if_neg (by simp [hf]), if_neg (not_not_intro v1), if_neg (not_not_intro v2),
    if_neg (not_not_intro v3), if_neg (not_not_intro v4), if_neg (not_not_intro v5)]

/-- C7 (amended): the five `process` parameters are validated eagerly, by
assertions placed after the file check and before any copy, load or
computation, and each out-of-domain value raises the corresponding
`AssertionError` — an invalid pitch increase such as `pitchIncrease = -2`,
an invalid speed decrease such as `speedDecrease = 1.5` (with the earlier
parameters valid, since the asserts run in order), and an invalid room size
such as `reverbRoomSize = 0`; but that failure aborts the entire `process`
call — no sibling transform completes and no artifact is produced — rather
than only the transform owning the parameter; and `apply_overlay` never
validates `overlay_volume` at all: a negative volume is accepted and mixed. -/
theorem eager_validation_aborts_whole_call
    (fs1 : String → Bool) (load1 : String → List ℚ × ℕ) (tf1 : TransformFns)
    (req1 : ProcessReq) (p : ℚ)
    (hf1 : fs1 req1.input_path = true)
    (hp1 : req1.pitch_increase = some p) (hbad1 : ¬ 0 < p)
    (fs2 : String → Bool) (load2 : String → List ℚ × ℕ) (tf2 : TransformFns)
    (req2 : ProcessReq) (s : ℚ)
    (hf2 : fs2 req2.input_path = true)
    (w1 : OptOk req2.pitch_increase (fun x => 0 < x))
    (w2 : OptOk req2.pitch_decrease (fun x => x < 0))
    (w3 : OptOk req2.speed_increase (fun x => 1 < x))
    (hs2 : req2.speed_decrease = some s) (hbad2 : ¬ (0 < s ∧ s < 1))
    (fs : String → Bool) (load : String → List ℚ × ℕ) (tf : TransformFns)
    (req : ProcessReq) (r : ℚ)
    (hf : fs req.input_path = true)
    (v1 : OptOk req.pitch_increase (fun x => 0 < x))
    (v2 : OptOk req.pitch_decrease (fun x => x < 0))
    (v3 : OptOk req.speed_increase (fun x => 1 < x))
    (v4 : OptOk req.speed_decrease (fun x => 0 < x ∧ x < 1))
    (hr : req.reverb_room_size = some r) (hbad : ¬ (0 < r ∧ r ≤ 1)) :
    process fs1 load1 tf1 req1 =
      ProcResult.assertError "pitch_increase must be positive" ∧
    process fs2 load2 tf2 req2 =
      ProcResult.assertError "speed_decrease must be between 0 and 1" ∧
    process fs load tf req =
      ProcResult.assertError "reverb_room_size must be between 0 and 1" ∧
    (∀ arts, process fs1 load1 tf1 req1 ≠ ProcResult.ok arts) ∧
    (∀ arts, process fs2 load2 tf2 req2 ≠ ProcResult.ok arts) ∧
    (∀ arts, process fs load tf req ≠ ProcResult.ok arts) ∧
    apply_overlay (fun _ => true) (fun _ _ => ([(1 : ℚ) / 2], 4)) "a" "b" (-1) =
      OverlayResult.ok [0] 4 := by
  have hm1 : process fs1 load1 tf1 req1 =
      ProcResult.assertError "pitch_increase must be positive" := by
    unfold process
    rw [if_neg (by simp [hf1]), if_pos]
    rw [hp1]
    exact hbad1
  have hm2 : process fs2 load2 tf2 req2 =
      ProcResult.assertError "speed_decrease must be between 0 and 1" := by
    unfold process
    rw [if_neg (by simp [hf2]), if_neg (not_not_intro w1), if_neg (not_not_intro w2),
      if_neg (not_not_intro w3), if_pos]
    rw [hs2]
    exact hbad2
  have hm3 : process fs load tf req =
      ProcResult.assertError "reverb_room_size must be between 0 and 1" := by
    unfold process
    rw [if_neg (by simp [hf]), if_neg (not_not_intro v1), if_neg (not_not_intro v2),
      if_neg (not_not_intro v3), if_neg (not_not_intro v4), if_pos]
    rw [hr]
    exact hbad
  refine ⟨hm1, hm2, hm3,
    fun arts hc => by rw [hm1] at hc; exact ProcResult.noConfusion hc,
    fun arts hc => by rw [hm2] at hc; exact ProcResult.noConfusion hc,
    fun arts hc => by rw [hm3] at hc; exact ProcResult.noConfusion hc, ?_⟩
  norm_num [apply_overlay, overlay_audio, overlayMixed, reconcileLength, maxAbs]

/-- Witness for the amended C7 at concrete inputs: `pitchIncrease = -2`,
`speedDecrease = 3/2` and `reverbRoomSize = 0` each raise the corresponding
assertion, and the negative overlay volume is accepted. -/
theorem eager_validation_aborts_whole_call_w :
    process (fun _ => true) (fun _ => ([(1 : ℚ)], 1)) tfConst
        ⟨"input.mp3", some (-2), none, none, none, none⟩ =
      ProcResult.assertError "pitch_increase must be positive" ∧
    process (fun _ => true) (fun _ => ([(1 : ℚ)], 1)) tfConst
        ⟨"input.mp3", none, none, none, some (3 / 2), none⟩ =
      ProcResult.assertError "speed_decrease must be between 0 and 1" ∧
    process (fun _ => true) (fun _ => ([(1 : ℚ)], 1)) tfConst
        ⟨"input.mp3", some 4, some (-4), some (3 / 2), some (1 / 2), some 0⟩ =
      ProcResult.assertError "reverb_room_size must be between 0 and 1" ∧
    apply_overlay (fun _ => true) (fun _ _ => ([(1 : ℚ) / 2], 4)) "a" "b" (-1) =
      OverlayResult.ok [0] 4 := by
  have h := eager_validation_aborts_whole_call
    (fun _ => true) (fun _ => ([(1 : ℚ)], 1)) tfConst
    ⟨"input.mp3", some (-2), none, none, none, none⟩ (-2)
    rfl rfl (by norm_num)
    (fun _ => true) (fun _ => ([(1 : ℚ)], 1)) tfConst
    ⟨"input.mp3", none, none, none, some (3 / 2), none⟩ (3 / 2)
    rfl trivial trivial trivial rfl (by norm_num)
    (fun _ => true) (fun _ => ([(1 : ℚ)], 1)) tfConst
    ⟨"input.mp3", some 4, some (-4), some (3 / 2), some (1 / 2), some 0⟩ 0
    rfl (by norm_num [OptOk]) (by norm_num [OptOk]) (by norm_num [OptOk])
    (by norm_num [OptOk]) rfl (by norm_num)
  exact ⟨h.1, h.2.1, h.2.2.1, h.2.2.2.2.2.2⟩

/-- Counterexample to C7 as stated: with the pitch-increase transform
requested alongside `reverb_room_size = 0`, the whole `process` call raises
`AssertionError`; the pitch transform does not complete and produces no
output artifact, contradicting the claimed partial-failure semantics. -/
theorem eager_validation_cx :
    process (fun _ => true) (fun _ => ([(1 : ℚ)], 1)) tfConst
        ⟨"input.mp3", some 4, none, none, none, some 0⟩ =
      ProcResult.assertError "reverb_room_size must be between 0 and 1" := by
  unfold process
  rw [if_neg (by simp), if_neg (by norm_num [OptOk]), if_neg (by norm_num [OptOk]),
    if_neg (by norm_num [OptOk]), if_neg (by norm_num [OptOk]),
    if_pos (by norm_num [OptOk])]

/-- C8: a missing input (or overlay) file aborts the whole request before
any transform is attempted — no artifact is produced — and the condition is
reported through an error message naming the offending path rather than
silently swallowed. -/
theorem missing_source_aborts
    (fs1 : String → Bool) (load1 : String → List ℚ × ℕ) (tf : TransformFns)
    (req : ProcessReq)
    (fs2 : String → Bool) (load2 : String → Option ℕ → List ℚ × ℕ)
    (p2 q2 : String) (w2 : ℚ)
    (fs3 : String → Bool) (load3 : String → Option ℕ → List ℚ × ℕ)
    (p3 q3 : String) (w3 : ℚ)
    (h1 : fs1 req.input_path = false)
    (h2 : fs2 p2 = false)
    (h3a : fs3 p3 = true) (h3b : fs3 q3 = false) :
    process fs1 load1 tf req =
      ProcResult.missingFile ("Error: File " ++ req.input_path ++ " not found.") ∧
    apply_overlay fs2 load2 p2 q2 w2 =
      OverlayResult.missingFile ("Error: File " ++ p2 ++ " not found.") ∧
    apply_overlay fs3 load3 p3 q3 w3 =
      OverlayResult.missingFile ("Error: Overlay file " ++ q3 ++ " not found.") := by
  refine ⟨?_, ?_, ?_⟩
  · unfold process
    rw [if_pos h1]
  · unfold apply_overlay
    rw [if_pos h2]
  · unfold apply_overlay
    rw [if_neg (by simp [h3a]), if_pos h3b]

/-- Witness for C8 at concrete inputs. -/
theorem missing_source_aborts_w :
    ((fun (_ : String) => false) "in.mp3" = false) ∧
      ((fun (_ : String) => false) "a" = false) ∧
      ((fun (s : String) => s == "p") "p" = true) ∧
      ((fun (s : String) => s == "p") "q" = false) ∧
    (process (fun _ => false) (fun _ => ([(1 : ℚ)], 1)) tfConst
        ⟨"in.mp3", none, none, none, none, none⟩ =
      ProcResult.missingFile ("Error: File " ++ "in.mp3" ++ " not found.") ∧
     apply_overlay (fun _ => false) (fun _ _ => ([(1 : ℚ)], 1)) "a" "b" 1 =
      OverlayResult.missingFile ("Error: File " ++ "a" ++ " not found.") ∧
     apply_overlay (fun s => s == "p") (fun _ _ => ([(1 : ℚ)], 1)) "p" "q" 1 =
      OverlayResult.missingFile ("Error: Overlay file " ++ "q" ++ " not found.")) := by
  refine ⟨rfl, rfl, rfl, rfl, ?_⟩
  exact missing_source_aborts (fun _ => false) (fun _ => ([(1 : ℚ)], 1)) tfConst
    ⟨"in.mp3", none, none, none, none, none⟩
    (fun _ => false) (fun _ _ => ([(1 : ℚ)], 1)) "a" "b" 1
    (fun s => s == "p") (fun _ _ => ([(1 : ℚ)], 1)) "p" "q" 1
    rfl rfl rfl rfl

/-- C9: every reverb artifact produced through `process` is mixed with a
wet/dry ratio of exactly `0.3`: the orchestrator invokes the reverb at the
hard default `wet_dry = 3/10`, and `process` exposes no parameter that could
change it. -/
theorem process_reverb_fixed_wet_dry
    (fs : String → Bool) (load : String → List ℚ × ℕ) (tf : TransformFns)
    (req : ProcessReq) (r : ℚ) (buf : List (Option ℚ))
    (hf : fs req.input_path = true)
    (v1 : OptOk req.pitch_increase (fun x => 0 < x))
    (v2 : OptOk req.pitch_decrease (fun x => x < 0))
    (v3 : OptOk req.speed_increase (fun x => 1 < x))
    (v4 : OptOk req.speed_decrease (fun x => 0 < x ∧ x < 1))
    (v5 : OptOk req.reverb_room_size (fun x => 0 < x ∧ x ≤ 1))
    (hr : req.reverb_room_size = some r)
    (hrev : apply_reverb (load req.input_path).1 (load req.input_path).2 r (3 / 10)
      tf.rexp tf.noise = Except.ok buf) :
    process fs load tf req =
      ProcResult.ok (processArtifacts load tf req ++ [Artifact.reverb buf]) := by
  rw [process_valid_eq fs load tf req hf v1 v2 v3 v4 v5]
  simp only [processTransforms, hr, hrev]

/-- Witness for C9 at concrete inputs: with only the reverb requested, the
orchestrated artifact is exactly the `wetDry = 3/10` reverb of the input. -/
theorem process_reverb_fixed_wet_dry_w :
    ((fun (_ : String) => true) "i" = true) ∧
      apply_reverb [(1 : ℚ)] 1 (1 / 2) (3 / 10) (fun _ => 1) (fun _ => 1) =
        Except.ok [some 1] ∧
    process (fun _ => true) (fun _ => ([(1 : ℚ)], 1)) tfConst
        ⟨"i", none, none, none, none, some (1 / 2)⟩ =
      ProcResult.ok [Artifact.reverb [some 1]] := by
  have hrev : apply_reverb [(1 : ℚ)] 1 (1 / 2) (3 / 10) (fun _ => 1) (fun _ => 1) =
      Except.ok [some 1] := by
    rw [apply_reverb_eq [(1 : ℚ)] 1 (1 / 2) (3 / 10) (fun _ => 1) (fun _ => 1)
      (by simp) (by norm_num [irLength, Int.toNat])]
    norm_num [normalizeNp, npDiv, maxAbs, reverbMixed, convSame, convFull,
      impulseResponse, linspace, irLength, Int.toNat, List.range_succ, abs_of_nonneg]
  refine ⟨rfl, hrev, ?_⟩
  have h := process_reverb_fixed_wet_dry (fun _ => true) (fun _ => ([(1 : ℚ)], 1))
    tfConst ⟨"i", none, none, none, none, some (1 / 2)⟩ (1 / 2) [some 1]
    rfl trivial trivial trivial trivial (by norm_num [OptOk]) rfl hrev
  rw [h]
  norm_num [processArtifacts]

/-- C10: the overlay mixer establishes its equal-sample-rate precondition
internally: `_overlay_audio` consults the load collaborator only at the
rate of the primary (its result depends on nothing else the loader could
return), under the resample contract of the loader the loaded secondary
carries exactly the rate of the primary, and `apply_overlay` saves the mixed
result at the native rate of the primary. -/
theorem overlay_resamples_internally
    (data : List ℚ) (sr : ℕ) (loadAt loadAt2 : ℕ → List ℚ × ℕ) (vr : ℚ)
    (hsame : loadAt sr = loadAt2 sr)
    (hcontract : ∀ r, (loadAt r).2 = r)
    (fs : String → Bool) (load : String → Option ℕ → List ℚ × ℕ)
    (p q : String) (vol : ℚ) (m : List ℚ)
    (hp : fs p = true) (hq : fs q = true)
    (hm : overlay_audio (load p none).1 (load p none).2
      (fun r => load q (some r)) vol = Except.ok m) :
    overlay_audio data sr loadAt vr = overlay_audio data sr loadAt2 vr ∧
    (loadAt sr).2 = sr ∧
    apply_overlay fs load p q vol = OverlayResult.ok m (load p none).2 := by
  refine ⟨?_, hcontract sr, ?_⟩
  · unfold overlay_audio
    rw [hsame]
  · unfold apply_overlay
    rw [if_neg (by simp [hp]), if_neg (by simp [hq])]
    simp only [hm]

/-- Witness for C10 at concrete inputs. -/
theorem overlay_resamples_internally_w :
    overlay_audio [(3 : ℚ) / 4] 8 (fun _ => ([(3 : ℚ) / 4], 8)) 1 = Except.ok [1] ∧
    ((fun (r : ℕ) => (([(1 : ℚ) / 2], r) : List ℚ × ℕ)) 8).2 = 8 ∧
    apply_overlay (fun _ => true) (fun _ _ => ([(3 : ℚ) / 4], 8)) "a" "b" 1 =
      OverlayResult.ok [1] 8 := by
  have hm : overlay_audio [(3 : ℚ) / 4] 8 (fun _ => ([(3 : ℚ) / 4], 8)) 1 =
      Except.ok [1] := by
    norm_num [overlay_audio, overlayMixed, reconcileLength, maxAbs, abs_of_nonneg]
  have h := overlay_resamples_internally [(3 : ℚ) / 4] 8
    (fun r => ([(1 : ℚ) / 2], r)) (fun r => ([(1 : ℚ) / 2], r)) 1 rfl (fun _ => rfl)
    (fun _ => true) (fun _ _ => ([(3 : ℚ) / 4], 8)) "a" "b" 1 [1] rfl rfl hm
  exact ⟨hm, h.2.1, h.2.2⟩

end AudioPipeline
